import Mathlib

/-!
Shallow embedding of the inventory-system repository (Python) in Lean 4.

Source files embedded:
  - src/src/models.py          (Product, KitComponent, Kit, BusinessRule,
                                EffectiveInventory)
  - src/src/inventory_engine.py (InventoryEngine._calculate_kit_inventory,
                                InventoryEngine.calculate_effective_inventory)
  - src/src/sheets_client.py   (GoogleSheetsClient.get_kit_components)
  - src/src/shopify_client.py  (ShopifyClient._get_recent_sales_fallback)

Conventions: Python ints are ℤ, Python floats are ℚ (exact arithmetic on the
values that occur), Python dicts are association lists or lookup functions,
a Python value that may be None is an Option.  Python `int(x)` truncation
toward zero is `pyTrunc`, Python builtin `round` (half to even) is
`pythonRound`.
-/

namespace InventorySystem

/-- Python `int(x)` applied to a float: truncation toward zero. -/
def pyTrunc (q : ℚ) : ℤ :=
  if q < 0 then -((-q).floor) else q.floor

/-- Python builtin `round` on a float, to the nearest integer with ties going
to the even integer (banker's rounding). -/
def pythonRound (q : ℚ) : ℤ :=
  let f := q.floor
  let r := q - (f : ℚ)
  if r < 1/2 then f
  else if 1/2 < r then f + 1
  else if f % 2 = 0 then f else f + 1

/-- models.py, class Product.  Stock counts are Python ints; velocity and
cost are Python floats, embedded as rationals. -/
structure Product where
  sku : String
  name : String
  current_stock : ℤ
  reserved_stock : ℤ := 0
  units_sold_30_days : ℤ := 0
  daily_sales_velocity : ℚ := 0
  unit_cost : ℚ := 0
deriving DecidableEq

/-- models.py, Product.available_stock: max(0, current_stock - reserved_stock). -/
def Product.available_stock (p : Product) : ℤ :=
  max 0 (p.current_stock - p.reserved_stock)

/-- models.py, Product.recommended_buffer:
returns 0 when daily_sales_velocity <= 0, else int(daily_sales_velocity * 7). -/
def Product.recommended_buffer (p : Product) : ℤ :=
  if p.daily_sales_velocity ≤ 0 then 0
  else pyTrunc (p.daily_sales_velocity * 7)

/-- models.py, class KitComponent.  quantity_per_kit is a Python float. -/
structure KitComponent where
  kit_sku : String
  component_sku : String
  component_name : String
  quantity_per_kit : ℚ
  component_cost : ℚ := 0
  is_critical : Bool := true
deriving DecidableEq

/-- models.py, class Kit (cost helper omitted; not referenced by the claims). -/
structure Kit where
  sku : String
  name : String
  description : String := ""
  price : ℚ := 0
  components : List KitComponent
  is_active : Bool := true
deriving DecidableEq

/-- models.py, class BusinessRule. -/
structure BusinessRule where
  component_sku : String
  minimum_buffer_stock : ℤ := 0
  maximum_kit_assembly : ℤ := 1000
  lead_time_days : ℤ := 7
  assembly_time_minutes : ℤ := 15
  priority_level : String := "Medium"
deriving DecidableEq

/-- models.py, class EffectiveInventory. -/
structure EffectiveInventory where
  kit_sku : String
  kit_name : String
  max_kits_possible : ℤ
  bottleneck_component : Option String := none
  days_of_stock : Option ℚ := none
  status : String := "OK"
deriving DecidableEq

/-! Engine: src/src/inventory_engine.py.
The engine state (self.products, self.business_rules) is passed explicitly
as lookup functions; self.kits is an association list preserving Python
dict insertion order. -/

/-- inventory_engine.py lines 82-87: available stock of the product, with the
minimum buffer of the business rule (when one exists) subtracted and clamped
at zero. -/
def adjustedAvailable (rules : String → Option BusinessRule)
    (p : Product) (c : KitComponent) : ℤ :=
  match rules c.component_sku with
  | some r => max 0 (p.available_stock - r.minimum_buffer_stock)
  | none => p.available_stock

/-- inventory_engine.py line 94: `component.component_name or
component.component_sku` — Python `or` falls back on an empty string. -/
def displayName (c : KitComponent) : String :=
  if c.component_name = "" then c.component_sku else c.component_name

/-- Kits supportable by one component (inventory_engine.py lines 81-90):
floor(adjusted availability / quantity_per_kit).  The none branch is never
reached by the engine loop, which short-circuits on a missing product first. -/
def supportableKits (products : String → Option Product)
    (rules : String → Option BusinessRule) (c : KitComponent) : ℤ :=
  match products c.component_sku with
  | some p => (((adjustedAvailable rules p c : ℤ) : ℚ) / c.quantity_per_kit).floor
  | none => 0

/-- The for-loop of InventoryEngine._calculate_kit_inventory (lines 68-109).
min_possible starts at float(inf), modelled as none; bottleneck starts
at None.  On a missing component the whole kit is short-circuited. -/
def calcKitLoop (products : String → Option Product)
    (rules : String → Option BusinessRule) (kit : Kit) :
    List KitComponent → Option ℤ → Option String → EffectiveInventory
  | [], minPossible, bottleneck =>
      { kit_sku := kit.sku
        kit_name := kit.name
        max_kits_possible := minPossible.getD 0
        bottleneck_component := bottleneck
        status :=
          match minPossible with
          | some m => if m = 0 then "CRITICAL" else if m ≤ 5 then "LOW" else "OK"
          | none => "OK" }
  | c :: rest, minPossible, bottleneck =>
      match products c.component_sku with
      | none =>
          { kit_sku := kit.sku
            kit_name := kit.name
            max_kits_possible := 0
            bottleneck_component := some ("Missing component: " ++ c.component_sku)
            status := "CRITICAL" }
      | some p =>
          let available := adjustedAvailable rules p c
          let possible : ℤ := (((available : ℤ) : ℚ) / c.quantity_per_kit).floor
          if (match minPossible with
              | none => true
              | some m => decide (possible < m)) then
            calcKitLoop products rules kit rest (some possible) (some (displayName c))
          else
            calcKitLoop products rules kit rest minPossible bottleneck

/-- InventoryEngine._calculate_kit_inventory (lines 57-109). -/
def calculateKitInventory (products : String → Option Product)
    (rules : String → Option BusinessRule) (kit : Kit) : EffectiveInventory :=
  if kit.components = [] then
    { kit_sku := kit.sku
      kit_name := kit.name
      max_kits_possible := 0
      bottleneck_component := some "No components defined"
      status := "CRITICAL" }
  else
    calcKitLoop products rules kit kit.components none none

/-- InventoryEngine.calculate_effective_inventory (lines 42-55).  kitSku none
models the default argument None; Python `if kit_sku:` is falsy for both
None and the empty string. -/
def calculateEffectiveInventory (products : String → Option Product)
    (rules : String → Option BusinessRule) (kits : List (String × Kit))
    (kitSku : Option String) : List EffectiveInventory :=
  match kitSku with
  | some s =>
      if s = "" then
        (kits.filter (fun kv => kv.2.is_active)).map
          (fun kv => calculateKitInventory products rules kv.2)
      else
        match kits.lookup s with
        | some kit => [calculateKitInventory products rules kit]
        | none => []
  | none =>
      (kits.filter (fun kv => kv.2.is_active)).map
        (fun kv => calculateKitInventory products rules kv.2)

/-! Data load: src/src/sheets_client.py, GoogleSheetsClient.get_kit_components
(lines 136-180).  A spreadsheet record is modelled with integer-valued
numeric cells; a missing or empty cell is none.  Python falsy checks
(`if kit_sku:`, `if qty_value`) treat None, the empty string and 0 as false. -/

/-- One row of the Component Mapping worksheet as returned by
get_all_records, restricted to integer-valued numeric cells. -/
structure ComponentRecord where
  kit_sku : Option String := none
  component_sku : String := ""
  component_name : String := ""
  quantity_cell : Option ℤ := none
  cost_cell : Option ℤ := none
  is_critical_cell : String := "Y"
deriving DecidableEq

/-- sheets_client.py lines 151-155: qty_value = record.get(..., 1) (none
models a missing key, giving the default 1); then
`float(qty_value) if qty_value else 1.0` — the cell value 0 is falsy and is
replaced by 1.0, every other integer passes through unchanged. -/
def parseQuantity (cell : Option ℤ) : ℚ :=
  match cell with
  | none => 1
  | some n => if n = 0 then 1 else (n : ℚ)

/-- sheets_client.py lines 157-161, same pattern with default 0. -/
def parseCost (cell : Option ℤ) : ℚ :=
  match cell with
  | none => 0
  | some n => if n = 0 then 0 else (n : ℚ)

/-- sheets_client.py lines 163-170: the KitComponent built from one record. -/
def recordComponent (r : ComponentRecord) (k : String) : KitComponent :=
  { kit_sku := k
    component_sku := r.component_sku
    component_name := r.component_name
    quantity_per_kit := parseQuantity r.quantity_cell
    component_cost := parseCost r.cost_cell
    is_critical := r.is_critical_cell = "Y" }

/-- sheets_client.py lines 172-174: append a component to the list held for
its kit SKU, creating the entry when absent (Python dict insertion order). -/
def appendComponent : List (String × List KitComponent) → String → KitComponent →
    List (String × List KitComponent)
  | [], k, c => [(k, [c])]
  | (k', cs) :: t, k, c =>
      if k' = k then (k', cs ++ [c]) :: t else (k', cs) :: appendComponent t k c

/-- GoogleSheetsClient.get_kit_components (lines 136-180): fold over the
records, skipping rows whose Kit SKU cell is falsy. -/
def getKitComponents (records : List ComponentRecord) :
    List (String × List KitComponent) :=
  records.foldl
    (fun acc r =>
      match r.kit_sku with
      | some k => if k = "" then acc else appendComponent acc k (recordComponent r k)
      | none => acc)
    []

/-! Sales velocity aggregation: src/src/shopify_client.py,
ShopifyClient._get_recent_sales_fallback (lines 194-311).  Timestamps are
integers (seconds, UTC).  The order source is a function from page number
to the response: none models a response without an orders key. -/

/-- One line item of an order (sku may be absent or null). -/
structure LineItem where
  sku : Option String := none
  quantity : ℤ := 0
deriving DecidableEq

/-- One order as fetched from the order source; created_at none models a
missing or empty created_at string. -/
structure Order where
  created_at : Option ℤ := none
  line_items : List LineItem := []
deriving DecidableEq

/-- The sales_by_sku dict: association list in insertion order. -/
abbrev SalesMap := List (String × ℤ)

/-- Python dict assignment d[k] = v: update in place when the key exists,
else append. -/
def setSale : SalesMap → String → ℤ → SalesMap
  | [], k, v => [(k, v)]
  | (k', v') :: t, k, v =>
      if k' = k then (k, v) :: t else (k', v') :: setSale t k v

/-- shopify_client.py lines 275-282: strip the SKU, and when it is non-blank
and the quantity positive, add the quantity to the running per-SKU count. -/
def addLineItem (acc : SalesMap) (it : LineItem) : SalesMap :=
  let sku := match it.sku with
             | some s => s.trim
             | none => ""
  if sku ≠ "" ∧ 0 < it.quantity then
    setSale acc sku ((acc.lookup sku).getD 0 + it.quantity)
  else acc

/-- All line items of one order, folded left as the Python for-loop does. -/
def addOrderItems (acc : SalesMap) (o : Order) : SalesMap :=
  o.line_items.foldl addLineItem acc

/-- The per-page for-loop of shopify_client.py lines 258-282: returns the
accumulated sales and oldest_order_in_batch.  On the first order whose
created_at predates the window start the loop breaks at once — that order's
line items and every later order in the page are skipped. -/
def pageLoop (start : ℤ) : List Order → SalesMap → Option ℤ → SalesMap × Option ℤ
  | [], acc, oldest => (acc, oldest)
  | o :: rest, acc, oldest =>
      match o.created_at with
      | some d =>
          if d < start then (acc, some d)
          else pageLoop start rest (addOrderItems acc o) (some d)
      | none => pageLoop start rest (addOrderItems acc o) oldest

/-- shopify_client.py line 285: stop when an oldest order was recorded and it
predates the window start. -/
def shouldStop (oldest : Option ℤ) (start : ℤ) : Bool :=
  match oldest with
  | some d => decide (d < start)
  | none => false

/-- Result of one sweep: the per-SKU sales, total orders processed, and the
number of page requests issued to the order source. -/
structure SweepResult where
  sales : SalesMap
  total_orders : ℕ
  requests : ℕ
deriving DecidableEq

/-- shopify_client.py line 239: max_orders = 50000. -/
def maxOrders : ℕ := 50000

/-- The while-loop of shopify_client.py lines 241-295.  Each iteration issues
one request; a falsy response or an empty orders list breaks; after
processing the page the loop stops on the date check, paginates only on a
full page of exactly 250 orders, and the guard total < 50000 bounds
everything.  Termination is by the measure 50000 - total, which the only
recursive call (a full page of 250 orders) strictly decreases. -/
def fetchLoop (start : ℤ) (src : ℕ → Option (List Order)) (total page : ℕ)
    (acc : SalesMap) (requests : ℕ) : SweepResult :=
  if h : total < maxOrders then
    match src page with
    | none => ⟨acc, total, requests + 1⟩
    | some orders =>
        if orders = [] then ⟨acc, total, requests + 1⟩
        else
          let total1 := total + orders.length
          let pr := pageLoop start orders acc none
          if shouldStop pr.2 start then ⟨pr.1, total1, requests + 1⟩
          else if hlen : orders.length = 250 then
            fetchLoop start src total1 (page + 1) pr.1 (requests + 1)
          else ⟨pr.1, total1, requests + 1⟩
  else ⟨acc, total, requests⟩
termination_by maxOrders - total
decreasing_by omega

/-- The persisted sales-velocity cache for one store: contents and the file
modification time, or none when no cache file exists. -/
structure CacheState where
  cache : Option (SalesMap × ℤ) := none
deriving DecidableEq

/-- shopify_client.py lines 218-311: fetch the orders and persist the result
with the current time as the file modification time. -/
def fetchAndCache (now start : ℤ) (src : ℕ → Option (List Order)) :
    SalesMap × CacheState × ℕ :=
  let r := fetchLoop start src 0 0 [] 0
  (r.sales, ⟨some (r.sales, now)⟩, r.requests)

/-- ShopifyClient._get_recent_sales_fallback (lines 194-311): when a cache
exists and (now - mtime) / 3600 < 6 its contents are returned verbatim with
no request issued; otherwise the orders are fetched and the result cached. -/
def getRecentSales (now start : ℤ) (src : ℕ → Option (List Order))
    (st : CacheState) : SalesMap × CacheState × ℕ :=
  match st.cache with
  | some (m, mtime) =>
      if ((now - mtime : ℤ) : ℚ) / 3600 < 6 then (m, st, 0)
      else fetchAndCache now start src
  | none => fetchAndCache now start src

/-! Spec-side definitions: formulas written the way the claims state them,
to be compared with the code-side definitions above. -/

/-- The buffer of the claims: the minimum_buffer_stock of the business rule
for the component SKU, or 0 when no rule exists. -/
def bufferFor (rules : String → Option BusinessRule) (c : KitComponent) : ℤ :=
  match rules c.component_sku with
  | some r => r.minimum_buffer_stock
  | none => 0

/-- The per-component formula of claim C1:
floor(max(0, available_stock - buffer) / quantity_per_kit).  The none branch
only pads the lookup; C1 assumes every referenced SKU is present. -/
def specSupportableKits (products : String → Option Product)
    (rules : String → Option BusinessRule) (c : KitComponent) : ℤ :=
  match products c.component_sku with
  | some p =>
      (((max 0 (p.available_stock - bufferFor rules c) : ℤ) : ℚ) /
        c.quantity_per_kit).floor
  | none => 0

/-- The status thresholds exactly as claim C3 states them: CRITICAL at 0,
LOW on 1..5, OK from 6 up. -/
def claimStatus (v : ℤ) : String :=
  if v = 0 then "CRITICAL" else if 1 ≤ v ∧ v ≤ 5 then "LOW" else "OK"

/-- One step of the running-minimum fold extracted from calcKitLoop: replace
the state only on a strictly smaller supportable-kits value. -/
def stepMin (products : String → Option Product)
    (rules : String → Option BusinessRule) (mb : ℤ × String)
    (c : KitComponent) : ℤ × String :=
  if supportableKits products rules c < mb.1 then
    (supportableKits products rules c, displayName c)
  else mb

/-- Closing of the engine loop on state (m, b): the record built once every
component has been folded. -/
def finalizeKit (kit : Kit) (mb : ℤ × String) : EffectiveInventory :=
  { kit_sku := kit.sku
    kit_name := kit.name
    max_kits_possible := mb.1
    bottleneck_component := some mb.2
    status := if mb.1 = 0 then "CRITICAL" else if mb.1 ≤ 5 then "LOW" else "OK" }

/-- An order predates the window start (the break condition of the per-page
loop). -/
def isOld (start : ℤ) (o : Order) : Bool :=
  match o.created_at with
  | some d => decide (d < start)
  | none => false

/-! Concrete inputs used by counterexamples and witnesses. -/

/-- A Component Mapping row carrying a negative Quantity per Kit. -/
def negativeQtyRecord : ComponentRecord :=
  { kit_sku := some "KIT-A"
    component_sku := "SCL-01"
    component_name := "Screw"
    quantity_cell := some (-3) }

/-- A product selling half a unit per day. -/
def cVelProduct : Product :=
  { sku := "P1", name := "P", current_stock := 10, daily_sales_velocity := 1/2 }

/-- Component catalog of the worked spec example: SCL-01 with stock 10,
SCL-02 with stock 3. -/
def cProducts : String → Option Product := fun s =>
  if s = "SCL-01" then some { sku := "SCL-01", name := "Screw 1", current_stock := 10 }
  else if s = "SCL-02" then some { sku := "SCL-02", name := "Screw 2", current_stock := 3 }
  else none

/-- Business rules of the worked spec example: buffer 2 on SCL-01. -/
def cRules : String → Option BusinessRule := fun s =>
  if s = "SCL-01" then some { component_sku := "SCL-01", minimum_buffer_stock := 2 }
  else none

/-- The worked spec example kit: 2 units of SCL-01 and 1 unit of SCL-02. -/
def cKit : Kit :=
  { sku := "KIT-A", name := "Kit A", components :=
      [{ kit_sku := "KIT-A", component_sku := "SCL-01", component_name := "Screw 1",
         quantity_per_kit := 2 },
       { kit_sku := "KIT-A", component_sku := "SCL-02", component_name := "Screw 2",
         quantity_per_kit := 1 }] }

/-- A kit whose second component is absent from the catalog. -/
def cKitMissing : Kit :=
  { sku := "KIT-B", name := "Kit B", components :=
      [{ kit_sku := "KIT-B", component_sku := "SCL-01", component_name := "Screw 1",
         quantity_per_kit := 2 },
       { kit_sku := "KIT-B", component_sku := "GHOST-9", component_name := "Ghost",
         quantity_per_kit := 1 }] }

/-- An inactive kit, for the single-kit-scope witness. -/
def cKitInactive : Kit :=
  { sku := "KIT-C", name := "Kit C", components := [], is_active := false }

/-- A kit catalog holding only the inactive kit. -/
def cKits : List (String × Kit) := [("KIT-C", cKitInactive)]

/-- A page holding an order older than the window start followed by an
in-window order for five units of SKU X. -/
def c7Page : List Order :=
  [{ created_at := some 0, line_items := [] },
   { created_at := some 20, line_items := [{ sku := some "X", quantity := 5 }] }]

/-- An order source serving c7Page as its first page and nothing after. -/
def c7Src : ℕ → Option (List Order) := fun i =>
  if i = 0 then some c7Page else none

/-- An order source with no orders at all. -/
def emptySrc : ℕ → Option (List Order) := fun _ => none

/-- The state in which no cache file exists. -/
def emptyCache : CacheState := ⟨none⟩

/-! Theorems. -/

/-- Rat.floor agrees with the floor of the FloorRing instance on ℚ. -/
theorem ratFloorEq (q : ℚ) : q.floor = ⌊q⌋ := rfl

/-- Buffer-adjusted availability is never negative: it is either a max with 0
or the available stock, itself a max with 0. -/
theorem adjustedAvailable_nonneg (rules : String → Option BusinessRule)
    (p : Product) (c : KitComponent) : 0 ≤ adjustedAvailable rules p c := by
  unfold adjustedAvailable
  cases rules c.component_sku with
  | none => exact le_max_left _ _
  | some r => exact le_max_left _ _

/-- The supportable-kits value the engine computes coincides with the
formula of claim C1 (buffer 0 when no rule exists). -/
theorem supportableKits_eq_spec (products : String → Option Product)
    (rules : String → Option BusinessRule) (c : KitComponent) :
    supportableKits products rules c = specSupportableKits products rules c := by
  unfold supportableKits specSupportableKits adjustedAvailable bufferFor
  cases products c.component_sku with
  | none => rfl
  | some p =>
      cases rules c.component_sku with
      | some r => rfl
      | none =>
          have h0 : (0 : ℤ) ≤ p.available_stock := by
            rw [Product.available_stock]; exact le_max_left _ _
          simp only [sub_zero, max_eq_right h0]

/-- The engine loop on a state with both fields set is the left fold of
stepMin, closed by finalizeKit, as long as every component is present. -/
theorem calcKitLoop_eq_fold (products : String → Option Product)
    (rules : String → Option BusinessRule) (kit : Kit) :
    ∀ (comps : List KitComponent) (m : ℤ) (b : String),
      (∀ c ∈ comps, (products c.component_sku).isSome) →
      calcKitLoop products rules kit comps (some m) (some b) =
        finalizeKit kit (comps.foldl (stepMin products rules) (m, b)) := by
  intro comps
  induction comps with
  | nil => intro m b _; rfl
  | cons c rest ih =>
      intro m b hpres
      obtain ⟨p, hp⟩ := Option.isSome_iff_exists.mp
        (hpres c (List.mem_cons_self c rest))
      have hrest : ∀ x ∈ rest, (products x.component_sku).isSome :=
        fun x hx => hpres x (List.mem_cons_of_mem c hx)
      have hsupp : (((adjustedAvailable rules p c : ℤ) : ℚ) /
          c.quantity_per_kit).floor = supportableKits products rules c := by
        rw [supportableKits, hp]
      simp only [calcKitLoop, hp, List.foldl_cons]
      by_cases hlt :
          (((adjustedAvailable rules p c : ℤ) : ℚ) / c.quantity_per_kit).floor < m
      · rw [if_pos (by simpa using hlt), ih _ _ hrest]
        congr 1
        rw [stepMin, if_pos (by rw [← hsupp]; exact hlt), hsupp]
      · rw [if_neg (by simpa using hlt), ih _ _ hrest]
        congr 1
        rw [stepMin, if_neg (by rw [← hsupp]; exact hlt)]

/-- The whole per-kit computation, for a kit with a non-empty component list
all of whose components are present, is the fold seeded with the first
component. -/
theorem calculateKitInventory_eq_fold (products : String → Option Product)
    (rules : String → Option BusinessRule) (kit : Kit)
    (c0 : KitComponent) (rest : List KitComponent)
    (hcomps : kit.components = c0 :: rest)
    (hpres : ∀ c ∈ kit.components, (products c.component_sku).isSome) :
    calculateKitInventory products rules kit =
      finalizeKit kit (rest.foldl (stepMin products rules)
        (supportableKits products rules c0, displayName c0)) := by
  rw [hcomps] at hpres
  obtain ⟨p, hp⟩ := Option.isSome_iff_exists.mp
    (hpres c0 (List.mem_cons_self c0 rest))
  have hrest : ∀ x ∈ rest, (products x.component_sku).isSome :=
    fun x hx => hpres x (List.mem_cons_of_mem c0 hx)
  have hsupp : (((adjustedAvailable rules p c0 : ℤ) : ℚ) /
      c0.quantity_per_kit).floor = supportableKits products rules c0 := by
    rw [supportableKits, hp]
  rw [calculateKitInventory, if_neg (by simp [hcomps]), hcomps]
  simp only [calcKitLoop, hp]
  rw [if_pos trivial, calcKitLoop_eq_fold products rules kit rest _ _ hrest, hsupp]

/-- The first coordinate of the stepMin fold is the running minimum of the
supportable-kits values. -/
theorem foldl_stepMin_fst (products : String → Option Product)
    (rules : String → Option BusinessRule) :
    ∀ (l : List KitComponent) (mb : ℤ × String),
      (l.foldl (stepMin products rules) mb).1 =
        (l.map (supportableKits products rules)).foldl min mb.1 := by
  intro l
  induction l with
  | nil => intro mb; rfl
  | cons c t ih =>
      intro mb
      simp only [List.foldl_cons, List.map_cons]
      rw [ih]
      congr 1
      rw [stepMin]
      by_cases h : supportableKits products rules c < mb.1
      · rw [if_pos h]; exact (min_eq_right h.le).symm
      · rw [if_neg h]; exact (min_eq_left (not_lt.mp h)).symm

/-- A left fold of min never exceeds its seed. -/
theorem foldl_min_le : ∀ (l : List ℤ) (m : ℤ), l.foldl min m ≤ m := by
  intro l
  induction l with
  | nil => intro m; exact le_refl m
  | cons a t ih =>
      intro m
      simp only [List.foldl_cons]
      exact le_trans (ih (min m a)) (min_le_left _ _)

/-- Second coordinate of the stepMin fold: it keeps the seed when no strictly
smaller value appears, and otherwise names the FIRST component attaining the
final minimum. -/
theorem foldl_stepMin_snd (products : String → Option Product)
    (rules : String → Option BusinessRule) :
    ∀ (l : List KitComponent) (m : ℤ) (b : String),
      ((l.foldl (stepMin products rules) (m, b)).1 = m →
        (l.foldl (stepMin products rules) (m, b)).2 = b) ∧
      ((l.foldl (stepMin products rules) (m, b)).1 < m →
        ∃ c, l.find? (fun c => supportableKits products rules c ==
              (l.foldl (stepMin products rules) (m, b)).1) = some c ∧
          (l.foldl (stepMin products rules) (m, b)).2 = displayName c) := by
  intro l
  induction l with
  | nil =>
      intro m b
      exact ⟨fun _ => rfl, fun h => absurd h (lt_irrefl m)⟩
  | cons c t ih =>
      intro m b
      simp only [List.foldl_cons]
      by_cases h : supportableKits products rules c < m
      · rw [stepMin, if_pos h]
        have hle : (t.foldl (stepMin products rules)
            (supportableKits products rules c, displayName c)).1 ≤
            supportableKits products rules c := by
          rw [foldl_stepMin_fst]; exact foldl_min_le _ _
        constructor
        · intro hm
          exact absurd hm (by omega)
        · intro _
          rcases eq_or_lt_of_le hle with heq | hlt
          · refine ⟨c, ?_, (ih (supportableKits products rules c) (displayName c)).1 heq⟩
            rw [List.find?_cons_of_pos]
            simp [heq]
          · obtain ⟨c', hfind, hsnd⟩ :=
              (ih (supportableKits products rules c) (displayName c)).2 hlt
            refine ⟨c', ?_, hsnd⟩
            rw [List.find?_cons_of_neg]
            · exact hfind
            · simp; omega
      · rw [stepMin, if_neg h]
        have hle : (t.foldl (stepMin products rules) (m, b)).1 ≤ m := by
          rw [foldl_stepMin_fst]; exact foldl_min_le _ _
        constructor
        · exact (ih m b).1
        · intro hlt
          obtain ⟨c', hfind, hsnd⟩ := (ih m b).2 hlt
          refine ⟨c', ?_, hsnd⟩
          rw [List.find?_cons_of_neg]
          · exact hfind
          · simp; omega

/-- The engine loop, on any state, short-circuits at the first component
whose SKU is absent from the catalog. -/
theorem calcKitLoop_missing (products : String → Option Product)
    (rules : String → Option BusinessRule) (kit : Kit) :
    ∀ (comps : List KitComponent) (mP : Option ℤ) (bn : Option String),
      (∃ c ∈ comps, products c.component_sku = none) →
      ∃ c ∈ comps, products c.component_sku = none ∧
        calcKitLoop products rules kit comps mP bn =
          { kit_sku := kit.sku, kit_name := kit.name, max_kits_possible := 0,
            bottleneck_component := some ("Missing component: " ++ c.component_sku),
            status := "CRITICAL" } := by
  intro comps
  induction comps with
  | nil =>
      intro mP bn h
      obtain ⟨c, hc, _⟩ := h
      exact absurd hc (List.not_mem_nil c)
  | cons c1 t ih =>
      intro mP bn h
      cases hp : products c1.component_sku with
      | none =>
          refine ⟨c1, List.mem_cons_self c1 t, hp, ?_⟩
          simp only [calcKitLoop, hp]
      | some p =>
          obtain ⟨cm, hcm, hnone⟩ := h
          have hcmt : cm ∈ t := by
            rcases List.mem_cons.mp hcm with rfl | h2
            · rw [hp] at hnone; exact absurd hnone (by simp)
            · exact h2
          simp only [calcKitLoop, hp]
          split
          · obtain ⟨c', hc', hn', heq'⟩ := ih _ _ ⟨cm, hcmt, hnone⟩
            exact ⟨c', List.mem_cons_of_mem c1 hc', hn', heq'⟩
          · obtain ⟨c', hc', hn', heq'⟩ := ih _ _ ⟨cm, hcmt, hnone⟩
            exact ⟨c', List.mem_cons_of_mem c1 hc', hn', heq'⟩

/-- The engine loop started on a nonnegative running minimum keeps status and
max_kits_possible related by the claimed thresholds, as long as every
quantity-per-kit is positive. -/
theorem calcKitLoop_status (products : String → Option Product)
    (rules : String → Option BusinessRule) (kit : Kit) :
    ∀ (comps : List KitComponent) (m : ℤ) (bn : Option String), 0 ≤ m →
      (∀ c ∈ comps, 0 < c.quantity_per_kit) →
      (calcKitLoop products rules kit comps (some m) bn).status =
        claimStatus (calcKitLoop products rules kit comps (some m) bn).max_kits_possible := by
  intro comps
  induction comps with
  | nil =>
      intro m bn hm _
      simp only [calcKitLoop, claimStatus, Option.getD]
      by_cases h0 : m = 0
      · simp [h0]
      · rw [if_neg h0, if_neg h0]
        by_cases h5 : m ≤ 5
        · rw [if_pos h5, if_pos ⟨by omega, h5⟩]
        · rw [if_neg h5, if_neg (fun hc => h5 hc.2)]
  | cons c1 t ih =>
      intro m bn hm hq
      cases hp : products c1.component_sku with
      | none =>
          simp only [calcKitLoop, hp]
          simp [claimStatus]
      | some p =>
          have hq1 : 0 < c1.quantity_per_kit := hq c1 (List.mem_cons_self _ _)
          have hqt : ∀ c ∈ t, 0 < c.quantity_per_kit :=
            fun c hc => hq c (List.mem_cons_of_mem _ hc)
          have hposs : (0 : ℤ) ≤
              (((adjustedAvailable rules p c1 : ℤ) : ℚ) / c1.quantity_per_kit).floor := by
            rw [ratFloorEq]
            exact Int.floor_nonneg.mpr (div_nonneg
              (by exact_mod_cast adjustedAvailable_nonneg rules p c1) hq1.le)
          simp only [calcKitLoop, hp]
          by_cases hlt :
              (((adjustedAvailable rules p c1 : ℤ) : ℚ) / c1.quantity_per_kit).floor < m
          · rw [if_pos (by simpa using hlt)]
            exact ih _ _ hposs hqt
          · rw [if_neg (by simpa using hlt)]
            exact ih _ _ hm hqt

/-- The worked example kit has components. -/
theorem cKit_ne_nil : cKit.components ≠ [] := by simp [cKit]

/-- Every component of the worked example kit is in the catalog. -/
theorem cKit_pres : ∀ c ∈ cKit.components, (cProducts c.component_sku).isSome := by
  intro c hc
  fin_cases hc <;> rfl

/-- The worked example kit has nonzero quantities. -/
theorem cKit_qpk_ne : ∀ c ∈ cKit.components, c.quantity_per_kit ≠ 0 := by
  intro c hc
  fin_cases hc <;> norm_num

/-- The worked example kit has positive quantities. -/
theorem cKit_qpk_pos : ∀ c ∈ cKit.components, 0 < c.quantity_per_kit := by
  intro c hc
  fin_cases hc <;> norm_num

/-- The kit with the ghost component has nonzero quantities. -/
theorem cKitMissing_qpk_ne : ∀ c ∈ cKitMissing.components, c.quantity_per_kit ≠ 0 := by
  intro c hc
  fin_cases hc <;> norm_num

/-- C1: for a kit whose component list is non-empty and whose components are
all present in the catalog (and with nonzero quantities, so the Python float
division is defined), max_kits_possible is the minimum over the components
of floor(max(0, available_stock - buffer) / quantity_per_kit), with buffer
the minimum_buffer_stock of the business rule or 0 when no rule exists. -/
theorem max_kits_eq_min_supportable (products : String → Option Product)
    (rules : String → Option BusinessRule) (kit : Kit)
    (hne : kit.components ≠ [])
    (hpres : ∀ c ∈ kit.components, (products c.component_sku).isSome)
    (hq : ∀ c ∈ kit.components, c.quantity_per_kit ≠ 0) :
    (kit.components.map (specSupportableKits products rules)).min? =
      some ((calculateKitInventory products rules kit).max_kits_possible) := by
  obtain ⟨c0, rest, hcomps⟩ : ∃ c0 rest, kit.components = c0 :: rest := by
    cases h : kit.components with
    | nil => exact absurd h hne
    | cons a l => exact ⟨a, l, rfl⟩
  have hspec : specSupportableKits products rules = supportableKits products rules :=
    funext fun c => (supportableKits_eq_spec products rules c).symm
  rw [calculateKitInventory_eq_fold products rules kit c0 rest hcomps hpres, hcomps,
    hspec, List.map_cons,
    show (finalizeKit kit (rest.foldl (stepMin products rules)
        (supportableKits products rules c0, displayName c0))).max_kits_possible =
      (rest.foldl (stepMin products rules)
        (supportableKits products rules c0, displayName c0)).1 from rfl,
    foldl_stepMin_fst]
  rfl

/-- C1 witness: the worked example of the spec — kit KIT-A needs 2 of SCL-01
(stock 10, buffer 2) and 1 of SCL-02 (stock 3, no rule). -/
theorem max_kits_eq_min_supportable_witness :
    cKit.components ≠ [] ∧
    (∀ c ∈ cKit.components, (cProducts c.component_sku).isSome) ∧
    (∀ c ∈ cKit.components, c.quantity_per_kit ≠ 0) ∧
    (cKit.components.map (specSupportableKits cProducts cRules)).min? =
      some ((calculateKitInventory cProducts cRules cKit).max_kits_possible) :=
  ⟨cKit_ne_nil, cKit_pres, cKit_qpk_ne,
    max_kits_eq_min_supportable cProducts cRules cKit cKit_ne_nil cKit_pres cKit_qpk_ne⟩

/-- C2: a kit referencing any component absent from the catalog yields
max_kits_possible 0, status CRITICAL, and a bottleneck naming a missing
component SKU, regardless of the other components' stock. -/
theorem missing_component_short_circuit (products : String → Option Product)
    (rules : String → Option BusinessRule) (kit : Kit)
    (hmiss : ∃ c ∈ kit.components, products c.component_sku = none)
    (hq : ∀ c ∈ kit.components, c.quantity_per_kit ≠ 0) :
    (calculateKitInventory products rules kit).max_kits_possible = 0 ∧
    (calculateKitInventory products rules kit).status = "CRITICAL" ∧
    ∃ c ∈ kit.components, products c.component_sku = none ∧
      (calculateKitInventory products rules kit).bottleneck_component =
        some ("Missing component: " ++ c.component_sku) := by
  have hne : kit.components ≠ [] := by
    obtain ⟨c, hc, _⟩ := hmiss
    intro h
    rw [h] at hc
    exact absurd hc (List.not_mem_nil c)
  rw [calculateKitInventory, if_neg hne]
  obtain ⟨c, hc, hnone, heq⟩ :=
    calcKitLoop_missing products rules kit kit.components none none hmiss
  rw [heq]
  exact ⟨rfl, rfl, c, hc, hnone, rfl⟩

/-- C2 witness: a kit whose second component GHOST-9 is absent from the
catalog while its first component SCL-01 has plenty of stock. -/
theorem missing_component_short_circuit_witness :
    (∃ c ∈ cKitMissing.components, cProducts c.component_sku = none) ∧
    (∀ c ∈ cKitMissing.components, c.quantity_per_kit ≠ 0) ∧
    ((calculateKitInventory cProducts cRules cKitMissing).max_kits_possible = 0 ∧
     (calculateKitInventory cProducts cRules cKitMissing).status = "CRITICAL" ∧
     ∃ c ∈ cKitMissing.components, cProducts c.component_sku = none ∧
       (calculateKitInventory cProducts cRules cKitMissing).bottleneck_component =
         some ("Missing component: " ++ c.component_sku)) := by
  have h1 : ∃ c ∈ cKitMissing.components, cProducts c.component_sku = none := by
    refine ⟨{ kit_sku := "KIT-B", component_sku := "GHOST-9", component_name := "Ghost",
              quantity_per_kit := 1 }, ?_, by decide⟩
    simp [cKitMissing]
  exact ⟨h1, cKitMissing_qpk_ne,
    missing_component_short_circuit cProducts cRules cKitMissing h1 cKitMissing_qpk_ne⟩

/-- C3: whenever every quantity-per-kit is positive (the data-model
invariant, under which the engine's division is defined and nonnegative),
the status of the result is exactly the threshold function of
max_kits_possible: CRITICAL at 0, LOW on 1..5, OK from 6. -/
theorem status_thresholds (products : String → Option Product)
    (rules : String → Option BusinessRule) (kit : Kit)
    (hq : ∀ c ∈ kit.components, 0 < c.quantity_per_kit) :
    (calculateKitInventory products rules kit).status =
      claimStatus ((calculateKitInventory products rules kit).max_kits_possible) := by
  by_cases hne : kit.components = []
  · rw [calculateKitInventory, if_pos hne]
    simp [claimStatus]
  · rw [calculateKitInventory, if_neg hne]
    obtain ⟨c0, rest, hcomps⟩ : ∃ c0 rest, kit.components = c0 :: rest := by
      cases h : kit.components with
      | nil => exact absurd h hne
      | cons a l => exact ⟨a, l, rfl⟩
    rw [hcomps] at hq ⊢
    cases hp : products c0.component_sku with
    | none =>
        simp only [calcKitLoop, hp]
        simp [claimStatus]
    | some p =>
        have hq0 : 0 < c0.quantity_per_kit := hq c0 (List.mem_cons_self _ _)
        have hposs : (0 : ℤ) ≤
            (((adjustedAvailable rules p c0 : ℤ) : ℚ) / c0.quantity_per_kit).floor := by
          rw [ratFloorEq]
          exact Int.floor_nonneg.mpr (div_nonneg
            (by exact_mod_cast adjustedAvailable_nonneg rules p c0) hq0.le)
        simp only [calcKitLoop, hp]
        rw [if_pos trivial]
        exact calcKitLoop_status products rules kit rest _ _ hposs
          (fun c hc => hq c (List.mem_cons_of_mem _ hc))

/-- C3 witness: the worked example kit, whose result is 3 kits and LOW. -/
theorem status_thresholds_witness :
    (∀ c ∈ cKit.components, 0 < c.quantity_per_kit) ∧
    (calculateKitInventory cProducts cRules cKit).status =
      claimStatus ((calculateKitInventory cProducts cRules cKit).max_kits_possible) :=
  ⟨cKit_qpk_pos, status_thresholds cProducts cRules cKit cKit_qpk_pos⟩

/-- C4: for a non-empty kit with no missing components, the reported
bottleneck is the display name (SKU fallback) of the FIRST component, in
bill-of-materials order, whose supportable-kits value attains the minimum;
later ties never overwrite it. -/
theorem bottleneck_first_argmin (products : String → Option Product)
    (rules : String → Option BusinessRule) (kit : Kit)
    (hne : kit.components ≠ [])
    (hpres : ∀ c ∈ kit.components, (products c.component_sku).isSome)
    (hq : ∀ c ∈ kit.components, c.quantity_per_kit ≠ 0) :
    ∃ c, kit.components.find? (fun c => supportableKits products rules c ==
          (calculateKitInventory products rules kit).max_kits_possible) = some c ∧
      (calculateKitInventory products rules kit).bottleneck_component =
        some (displayName c) := by
  obtain ⟨c0, rest, hcomps⟩ : ∃ c0 rest, kit.components = c0 :: rest := by
    cases h : kit.components with
    | nil => exact absurd h hne
    | cons a l => exact ⟨a, l, rfl⟩
  rw [calculateKitInventory_eq_fold products rules kit c0 rest hcomps hpres, hcomps]
  simp only [finalizeKit]
  have hle : (rest.foldl (stepMin products rules)
      (supportableKits products rules c0, displayName c0)).1 ≤
      supportableKits products rules c0 := by
    rw [foldl_stepMin_fst]; exact foldl_min_le _ _
  rcases eq_or_lt_of_le hle with heq | hlt
  · refine ⟨c0, ?_, ?_⟩
    · rw [List.find?_cons_of_pos]
      simp [heq]
    · rw [(foldl_stepMin_snd products rules rest
        (supportableKits products rules c0) (displayName c0)).1 heq]
  · obtain ⟨c', hfind, hsnd⟩ :=
      (foldl_stepMin_snd products rules rest
        (supportableKits products rules c0) (displayName c0)).2 hlt
    refine ⟨c', ?_, by rw [hsnd]⟩
    rw [List.find?_cons_of_neg]
    · exact hfind
    · simp
      omega

/-- C4 witness: in the worked example SCL-01 supports 4 kits and SCL-02
supports 3, so the first component attaining the minimum is SCL-02. -/
theorem bottleneck_first_argmin_witness :
    cKit.components ≠ [] ∧
    (∀ c ∈ cKit.components, (cProducts c.component_sku).isSome) ∧
    (∀ c ∈ cKit.components, c.quantity_per_kit ≠ 0) ∧
    ∃ c, cKit.components.find? (fun c => supportableKits cProducts cRules c ==
          (calculateKitInventory cProducts cRules cKit).max_kits_possible) = some c ∧
      (calculateKitInventory cProducts cRules cKit).bottleneck_component =
        some (displayName c) :=
  ⟨cKit_ne_nil, cKit_pres, cKit_qpk_ne,
    bottleneck_first_argmin cProducts cRules cKit cKit_ne_nil cKit_pres cKit_qpk_ne⟩

/-- C10: calling the effective-inventory computation with a specific
(non-empty) kit SKU returns the empty list when the SKU is not in the kit
catalog, and exactly the one result for that kit when it is — with no
is_active filtering on this path. -/
theorem single_kit_scope (products : String → Option Product)
    (rules : String → Option BusinessRule) (kits : List (String × Kit))
    (s : String) (hs : s ≠ "") :
    (kits.lookup s = none →
      calculateEffectiveInventory products rules kits (some s) = []) ∧
    (∀ kit, kits.lookup s = some kit →
      calculateEffectiveInventory products rules kits (some s) =
        [calculateKitInventory products rules kit]) := by
  constructor
  · intro h
    simp only [calculateEffectiveInventory, if_neg hs, h]
  · intro kit h
    simp only [calculateEffectiveInventory, if_neg hs, h]

/-- C10 witness: a catalog holding a single INACTIVE kit KIT-C; asking for
KIT-C returns its one result, and asking for an absent SKU returns []. -/
theorem single_kit_scope_witness :
    ("KIT-C" : String) ≠ "" ∧
    cKits.lookup "KIT-C" = some cKitInactive ∧
    cKitInactive.is_active = false ∧
    calculateEffectiveInventory cProducts cRules cKits (some "KIT-C") =
      [calculateKitInventory cProducts cRules cKitInactive] ∧
    cKits.lookup "KIT-X" = none ∧
    calculateEffectiveInventory cProducts cRules cKits (some "KIT-X") = [] := by
  have hs : ("KIT-C" : String) ≠ "" := by decide
  have hsx : ("KIT-X" : String) ≠ "" := by decide
  have hl : cKits.lookup "KIT-C" = some cKitInactive := rfl
  have hlx : cKits.lookup "KIT-X" = none := rfl
  exact ⟨hs, hl, rfl,
    (single_kit_scope cProducts cRules cKits "KIT-C" hs).2 cKitInactive hl,
    hlx,
    (single_kit_scope cProducts cRules cKits "KIT-X" hsx).1 hlx⟩

/-- C5: the data-load step does not reject a negative quantity-per-kit.  A
Component Mapping row with Quantity per Kit = -3 is loaded into a
KitComponent whose quantity_per_kit is -3, which is not positive, and which
reaches the engine unchanged. -/
theorem negative_quantity_reaches_engine :
    getKitComponents [negativeQtyRecord] =
      [("KIT-A",
        [{ kit_sku := "KIT-A", component_sku := "SCL-01", component_name := "Screw",
           quantity_per_kit := -3, component_cost := 0, is_critical := true }])] ∧
    ¬ (0 < (-3 : ℚ)) := by
  refine ⟨?_, by norm_num⟩
  simp +decide [getKitComponents, negativeQtyRecord, appendComponent, recordComponent,
    parseQuantity, parseCost]

/-- C6 counterexample: for a product with daily_sales_velocity 1/2 the code
computes recommended_buffer = int(0.5 * 7) = 3, while round(0.5 * 7) = 4, so
the recommended buffer is not round(velocity * 7). -/
theorem recommended_buffer_not_round :
    cVelProduct.recommended_buffer = 3 ∧
    pythonRound (cVelProduct.daily_sales_velocity * 7) = 4 := by
  constructor
  · norm_num [Product.recommended_buffer, pyTrunc, cVelProduct, ratFloorEq]
  · norm_num [pythonRound, cVelProduct, ratFloorEq]

/-- C6 amended: the recommended buffer is 0 when the velocity is nonpositive
and otherwise the TRUNCATION of velocity * 7 toward zero, which for a
positive velocity is its floor, not its rounding. -/
theorem recommended_buffer_truncates (p : Product) :
    (p.daily_sales_velocity ≤ 0 → p.recommended_buffer = 0) ∧
    (0 < p.daily_sales_velocity →
      p.recommended_buffer = ⌊p.daily_sales_velocity * 7⌋) := by
  constructor
  · intro h
    rw [Product.recommended_buffer, if_pos h]
  · intro h
    have hnn : (0 : ℚ) ≤ p.daily_sales_velocity * 7 :=
      mul_nonneg h.le (by norm_num)
    rw [Product.recommended_buffer, if_neg (not_le.mpr h), pyTrunc,
      if_neg (not_lt.mpr hnn)]
    exact ratFloorEq _

/-- C6 witness: the amended statement applied to the concrete product with
velocity 1/2. -/
theorem recommended_buffer_truncates_witness :
    0 < cVelProduct.daily_sales_velocity ∧
    cVelProduct.recommended_buffer = ⌊cVelProduct.daily_sales_velocity * 7⌋ :=
  ⟨by norm_num [cVelProduct],
   (recommended_buffer_truncates cVelProduct).2 (by norm_num [cVelProduct])⟩

/-- When some order of the page predates the window start, the page loop
accumulates exactly the orders before the first such order (the takeWhile
prefix), and the recorded oldest date witnesses the stop condition. -/
theorem pageLoop_of_any_old (start : ℤ) :
    ∀ (orders : List Order) (acc : SalesMap) (oldest : Option ℤ),
      orders.any (isOld start) = true →
      ∃ d, pageLoop start orders acc oldest =
        ((orders.takeWhile (fun o => !(isOld start o))).foldl addOrderItems acc,
          some d) ∧ d < start := by
  intro orders
  induction orders with
  | nil => intro acc oldest h; simp at h
  | cons o t ih =>
      intro acc oldest h
      rw [List.any_cons] at h
      cases hc : o.created_at with
      | some d0 =>
          by_cases hd : d0 < start
          · refine ⟨d0, ?_, hd⟩
            have hold : isOld start o = true := by simp [isOld, hc, hd]
            simp only [pageLoop, hc, if_pos hd, List.takeWhile_cons, hold,
              Bool.not_true]
            simp
          · have hold : isOld start o = false := by simp [isOld, hc, hd]
            have hany : t.any (isOld start) = true := by
              rw [hold] at h; simpa using h
            obtain ⟨d, hpl, hds⟩ := ih (addOrderItems acc o) (some d0) hany
            refine ⟨d, ?_, hds⟩
            simp only [pageLoop, hc, if_neg hd, List.takeWhile_cons, hold,
              Bool.not_false, if_true, List.foldl_cons]
            exact hpl
      | none =>
          have hold : isOld start o = false := by simp [isOld, hc]
          have hany : t.any (isOld start) = true := by
            rw [hold] at h; simpa using h
          obtain ⟨d, hpl, hds⟩ := ih (addOrderItems acc o) oldest hany
          refine ⟨d, ?_, hds⟩
          simp only [pageLoop, hc, List.takeWhile_cons, hold,
            Bool.not_false, if_true, List.foldl_cons]
          exact hpl

/-- One unfolding of the sweep loop for a non-empty page on which the stop
condition fires: the loop returns that page's accumulation and issues no
further request. -/
theorem fetchLoop_step_stop (start : ℤ) (src : ℕ → Option (List Order))
    (total page : ℕ) (acc : SalesMap) (req : ℕ) (orders : List Order)
    (h : total < maxOrders) (h0 : src page = some orders) (hne : orders ≠ [])
    (hstop : shouldStop (pageLoop start orders acc none).2 start = true) :
    fetchLoop start src total page acc req =
      ⟨(pageLoop start orders acc none).1, total + orders.length, req + 1⟩ := by
  rw [fetchLoop.eq_def, dif_pos h, h0]
  simp only [if_neg hne, if_pos hstop]

/-- C7 counterexample: with window start 10, a first page holding an order
dated 0 (before the window) followed by an in-window order dated 20 for five
units of SKU X.  The sweep stops after that page (one request) but records
NO sales at all — the in-window order after the old one is skipped, while
the claim demands every in-window order of the page be accumulated. -/
theorem page_break_skips_inwindow_order :
    (fetchLoop 10 c7Src 0 0 [] 0).sales = [] ∧
    (fetchLoop 10 c7Src 0 0 [] 0).requests = 1 ∧
    c7Page.any (isOld 10) = true ∧
    (∃ o ∈ c7Page, isOld 10 o = false ∧ o.created_at = some 20 ∧
      o.line_items = [{ sku := some "X", quantity := 5 }]) := by
  have heval : fetchLoop 10 c7Src 0 0 [] 0 = ⟨[], 2, 1⟩ := by
    rw [fetchLoop.eq_def]
    decide
  rw [heval]
  refine ⟨rfl, rfl, by decide, ?_⟩
  exact ⟨{ created_at := some 20, line_items := [{ sku := some "X", quantity := 5 }] },
    by simp [c7Page], by decide, rfl, rfl⟩

/-- C7 amended: when the first fetched page contains an order predating the
window start, the sweep accumulates exactly the orders BEFORE the first such
order (skipping the rest of the page, in-window or not), stops, and requests
no further page — the request count is exactly 1. -/
theorem page_break_prefix_and_stop (start : ℤ) (src : ℕ → Option (List Order))
    (orders : List Order) (h0 : src 0 = some orders) (hne : orders ≠ [])
    (hold : orders.any (isOld start) = true) :
    (fetchLoop start src 0 0 [] 0).sales =
      (orders.takeWhile (fun o => !(isOld start o))).foldl addOrderItems [] ∧
    (fetchLoop start src 0 0 [] 0).requests = 1 := by
  obtain ⟨d, hpl, hds⟩ := pageLoop_of_any_old start orders [] none hold
  have hstop : shouldStop (pageLoop start orders [] none).2 start = true := by
    rw [hpl]; simp [shouldStop, hds]
  rw [fetchLoop_step_stop start src 0 0 [] 0 orders
    (by norm_num [maxOrders]) h0 hne hstop]
  constructor
  · show (pageLoop start orders [] none).1 = _
    rw [hpl]
  · rfl

/-- C7 amended witness: the concrete page behind the counterexample. -/
theorem page_break_prefix_and_stop_witness :
    c7Src 0 = some c7Page ∧ c7Page ≠ [] ∧ c7Page.any (isOld 10) = true ∧
    ((fetchLoop 10 c7Src 0 0 [] 0).sales =
      (c7Page.takeWhile (fun o => !(isOld 10 o))).foldl addOrderItems [] ∧
     (fetchLoop 10 c7Src 0 0 [] 0).requests = 1) :=
  ⟨rfl, by decide, by decide,
    page_break_prefix_and_stop 10 c7Src c7Page rfl (by decide) (by decide)⟩

/-- The sweep loop, entered with a total that is a multiple of 250 and at
most 50000, never reports more than 50000 processed orders when every page
holds at most 250 orders.  (Termination itself is built into fetchLoop by
the well-founded measure 50000 - total.) -/
theorem fetchLoop_total_le_aux (start : ℤ) (src : ℕ → Option (List Order))
    (hsrc : ∀ i l, src i = some l → l.length ≤ 250) :
    ∀ total page acc req, total % 250 = 0 → total ≤ 50000 →
      (fetchLoop start src total page acc req).total_orders ≤ 50000 := by
  have hmo : maxOrders = 50000 := rfl
  intro total page acc req
  induction total, page, acc, req using fetchLoop.induct start src with
  | case1 total page acc req h hsp =>
      intro h250 hle
      rw [fetchLoop.eq_def, dif_pos h, hsp]
      exact hle
  | case2 total page acc req h hsp =>
      intro h250 hle
      rw [fetchLoop.eq_def, dif_pos h, hsp]
      exact hle
  | case3 total page acc req h orders hsp hne pr hstop =>
      intro h250 hle
      have hlen := hsrc page orders hsp
      rw [fetchLoop.eq_def, dif_pos h, hsp]
      simp only [if_neg hne, if_pos hstop]
      show total + orders.length ≤ 50000
      omega
  | case4 total page acc req h orders hsp hne total1 pr hstop hlen ih =>
      intro h250 hle
      rw [fetchLoop.eq_def, dif_pos h, hsp]
      simp only [if_neg hne, if_neg hstop, dif_pos hlen]
      exact ih (by omega) (by omega)
  | case5 total page acc req h orders hsp hne pr hstop hlen =>
      intro h250 hle
      have hl := hsrc page orders hsp
      rw [fetchLoop.eq_def, dif_pos h, hsp]
      simp only [if_neg hne, if_neg hstop, dif_neg hlen]
      show total + orders.length ≤ 50000
      omega
  | case6 total page acc req h =>
      intro h250 hle
      rw [fetchLoop.eq_def, dif_neg h]
      exact hle

/-- C8: a full sweep (which terminates for every source, by the well-founded
measure of fetchLoop) processes at most 50000 orders whenever the source
honours the requested page size of 250. -/
theorem sweep_total_orders_bounded (start : ℤ) (src : ℕ → Option (List Order))
    (hsrc : ∀ i l, src i = some l → l.length ≤ 250) :
    (fetchLoop start src 0 0 [] 0).total_orders ≤ 50000 :=
  fetchLoop_total_le_aux start src hsrc 0 0 [] 0 (by norm_num) (by norm_num)

/-- C8 witness: the bound applied to the empty order source. -/
theorem sweep_total_orders_bounded_witness :
    (∀ i l, emptySrc i = some l → l.length ≤ 250) ∧
    (fetchLoop 10 emptySrc 0 0 [] 0).total_orders ≤ 50000 :=
  ⟨fun i l h => by simp [emptySrc] at h,
   sweep_total_orders_bounded 10 emptySrc (fun i l h => by simp [emptySrc] at h)⟩

/-- C9: starting from no cache, an aggregation at time t0 persists its
result; a second aggregation at any time t1 with t1 - t0 under the 6-hour
TTL returns exactly the persisted mapping, leaves the cache untouched, and
issues zero requests to the order source. -/
theorem sales_cache_round_trip (t0 t1 s0 s1 : ℤ)
    (src0 src1 : ℕ → Option (List Order)) (st : CacheState)
    (hst : st.cache = none) (h : t1 - t0 < 21600) :
    getRecentSales t1 s1 src1 (getRecentSales t0 s0 src0 st).2.1 =
      ((getRecentSales t0 s0 src0 st).1,
       (getRecentSales t0 s0 src0 st).2.1, 0) := by
  have h1 : getRecentSales t0 s0 src0 st = fetchAndCache t0 s0 src0 := by
    simp only [getRecentSales, hst]
  rw [h1]
  have hfresh : ((t1 - t0 : ℤ) : ℚ) / 3600 < 6 := by
    rw [div_lt_iff₀ (by norm_num : (0:ℚ) < 3600)]
    calc ((t1 - t0 : ℤ) : ℚ) < (21600 : ℚ) := by exact_mod_cast h
    _ = 6 * 3600 := by norm_num
  simp only [fetchAndCache, getRecentSales]
  rw [if_pos hfresh]

/-- C9 witness: a fetch at time 0 with the empty source, reread at time 100. -/
theorem sales_cache_round_trip_witness :
    emptyCache.cache = none ∧ ((100 : ℤ) - 0 < 21600) ∧
    getRecentSales 100 5 emptySrc (getRecentSales 0 5 emptySrc emptyCache).2.1 =
      ((getRecentSales 0 5 emptySrc emptyCache).1,
       (getRecentSales 0 5 emptySrc emptyCache).2.1, 0) :=
  ⟨rfl, by norm_num,
   sales_cache_round_trip 0 100 5 5 emptySrc emptySrc emptyCache rfl (by norm_num)⟩

/-- The worked example of the spec evaluates exactly as the spec says:
max-buildable 3, bottleneck SCL-02 (display name Screw 2), status LOW. -/
theorem cKit_example_eval :
    calculateKitInventory cProducts cRules cKit =
      { kit_sku := "KIT-A", kit_name := "Kit A", max_kits_possible := 3,
        bottleneck_component := some "Screw 2", status := "LOW" } := by
  simp +decide only [calculateKitInventory, cKit, calcKitLoop, cProducts, cRules,
    adjustedAvailable, Product.available_stock, displayName]
  norm_num [ratFloorEq]

end InventorySystem
